import Mathlib

/-!
Shallow embedding of the smart-meter platform core (app/__init__.py, app/utils.py,
app/ai_model.py, app/pid_controller.py, app/models.py, app/routes.py).

Modelling conventions:
* Python floats are modelled as rationals (ℚ); machine timestamps are modelled as
  natural numbers ordered like the sortable ISO-8601 strings the log carries.
* JSON records are modelled by the structure Entry whose fields are Options:
  a missing key is None, matching dict.get semantics.
* Calls to random.uniform, the random hex generators and datetime.utcnow inside one
  pass are modelled by an explicit environment value Env passed to the pass; two
  distinct passes may receive distinct draws.
* The trained classifier is an oracle function from the ordered window to a tamper
  probability, as in the narrow inference contract of PredictiveModel.
* Python dicts are association lists with replace-in-place-or-append assignment
  (alSet) and first-match lookup (lookupA); Python stable sorted is the stable
  insertion sort sortRel.
-/

/-- Association-list update with Python dict semantics: replace the binding in place
if the key is present, otherwise append at the end. -/
def alSet {α : Type} (m : List (String × α)) (k : String) (v : α) : List (String × α) :=
  match m with
  | [] => [(k, v)]
  | p :: rest => if p.1 = k then (k, v) :: rest else p :: alSet rest k v

/-- Association-list lookup, first binding wins (Python dict access). -/
def lookupA {α : Type} (m : List (String × α)) (k : String) : Option α :=
  match m with
  | [] => none
  | p :: rest => if p.1 = k then some p.2 else lookupA rest k

/-- Apply a list of dict assignments in order. -/
def setAll {α : Type} (m : List (String × α)) (pairs : List (String × α)) :
    List (String × α) :=
  pairs.foldl (fun acc p => alSet acc p.1 p.2) m

/-- Stable insertion into a list sorted by the boolean relation le: the new element
goes before the first element b with le a b, hence after all earlier equal keys,
matching Python's stable sorted. -/
def insRel {α : Type} (le : α → α → Bool) (a : α) : List α → List α
  | [] => [a]
  | b :: l => if le a b then a :: b :: l else b :: insRel le a l

/-- Stable insertion sort by the boolean relation le (model of Python sorted). -/
def sortRel {α : Type} (le : α → α → Bool) : List α → List α
  | [] => []
  | a :: l => insRel le a (sortRel le l)

/-- Python l[-n:] for a positive n: the trailing n elements of l. -/
def lastN {α : Type} (n : Nat) (l : List α) : List α := l.drop (l.length - n)

/-- One record of the JSON telemetry log (sensor_logs.json). Every field is optional
because the code reads each one with dict.get. -/
structure Entry where
  node_id : Option String
  timestamp : Option Nat
  voltage : Option ℚ
  current : Option ℚ
  lightIntensity : Option ℚ
  tamperFlag : Option Int
  event_type : Option String
deriving DecidableEq

/-- MeterReading dataclass from app/models.py (timestamps as Nat, floats as ℚ). -/
structure MeterReading where
  node_id : String
  timestamp : Nat
  voltage : ℚ
  current : ℚ
  light : ℚ
  event_type : String
  tamper_reason : Option String
  confidence : ℚ
  ciphertext : String
  hmac : String
  verified : Bool
  health_score : Int
deriving DecidableEq

/-- AIPrediction dataclass from app/models.py. The timestamp is optional because
initialize_data builds it from entry.get with no default. -/
structure AIPrediction where
  timestamp : Option Nat
  node_id : String
  event_type : String
  confidence : ℚ
  explanation : String
  severity : String
deriving DecidableEq

/-- Environment draws consumed by one pass: the two random.uniform confidence ranges
of convert_json_to_meter_reading, the random hex strings, and the current clock
value used as default timestamp. -/
structure Env where
  confT : ℚ
  confN : ℚ
  cipher : String
  hmacHex : String
  now : Nat
deriving DecidableEq

/-- The global in-memory database db of app/__init__.py. -/
structure DB where
  meter_readings : List (String × MeterReading)
  predictions : List AIPrediction
  json_data : List Entry
  last_processed_index : Nat
  last_file_size : Nat
deriving DecidableEq

/-- State of the telemetry log file on disk, as seen by load_sensor_logs:
missing file, unreadable or malformed content of some byte size, or a
successfully parsed list of entries of some byte size. -/
inductive FileState where
  | missing : FileState
  | malformed : Nat → FileState
  | ok : Nat → List Entry → FileState
deriving DecidableEq

/-- Result of os.path.exists on the log path. -/
def fileExists : FileState → Bool
  | .missing => false
  | .malformed _ => true
  | .ok _ _ => true

/-- Result of os.path.getsize on the log path (0 when missing, unused then). -/
def fileSize : FileState → Nat
  | .missing => 0
  | .malformed s => s
  | .ok s _ => s

/-- load_sensor_logs from app/utils.py: a missing file, a JSON decode error or a
non-list document all yield the empty list; otherwise the parsed list. -/
def load_sensor_logs : FileState → List Entry
  | .missing => []
  | .malformed _ => []
  | .ok _ es => es

/-- convert_json_to_meter_reading from app/utils.py. The env argument carries the
random.uniform confidence draws, the random hex strings and the utcnow default. -/
def convert_json_to_meter_reading (env : Env) (j : Entry) : MeterReading :=
  let event_type := if j.tamperFlag.getD 0 = 1 then "TAMPER" else "NORMAL"
  let tamper_reason : Option String :=
    if event_type = "TAMPER" then
      let voltage := j.voltage.getD 0
      let current := j.current.getD 0
      let light := j.lightIntensity.getD 0
      some (if voltage > 240 ∨ voltage < 200 then "Abnormal Voltage"
            else if current > 15 then "Overcurrent"
            else if light < 500 then "Light Tamper"
            else "Switch Tampering")
    else none
  let confidence := if event_type = "TAMPER" then env.confT else env.confN
  { node_id := j.node_id.getD "UNKNOWN"
  , timestamp := j.timestamp.getD env.now
  , voltage := j.voltage.getD 220
  , current := j.current.getD 5
  , light := j.lightIntensity.getD 900
  , event_type := event_type
  , tamper_reason := tamper_reason
  , confidence := confidence
  , ciphertext := env.cipher
  , hmac := env.hmacHex
  , verified := true
  , health_score := 100 }

/-- Sort key of initialize_data: x.get('timestamp', ''), a missing timestamp
sorting first. -/
def tsKey (e : Entry) : Nat := e.timestamp.getD 0

/-- Chronological sort of the mirrored log (sorted with key timestamp). -/
def sortLog (l : List Entry) : List Entry :=
  sortRel (fun a b => decide (tsKey a ≤ tsKey b)) l

/-- The node_latest loop of initialize_data: last entry per truthy node_id. -/
def node_latest (l : List Entry) : List (String × Entry) :=
  l.foldl (fun acc e =>
    match e.node_id with
    | some nid => if nid = "" then acc else alSet acc nid e
    | none => acc) []

/-- Predicate of the historical-alert scan: tamperFlag == 1 or event_type == TAMPER. -/
def isTamperEntry (e : Entry) : Bool :=
  e.tamperFlag == some 1 || e.event_type == some "TAMPER"

/-- Confidence heuristic of initialize_data: conf = 80.0 + current * 1.5, replaced
by 99.9 when (and only when) it exceeds 100. -/
def histConf (e : Entry) : ℚ :=
  let conf := 80 + (e.current.getD 0) * (3 / 2)
  if conf > 100 then 999 / 10 else conf

/-- The historical AIPrediction built by initialize_data for one tamper entry. -/
def histAlert (e : Entry) : AIPrediction :=
  let conf := histConf e
  { timestamp := e.timestamp
  , node_id := e.node_id.getD "UNKNOWN"
  , event_type := "TAMPER"
  , confidence := conf
  , severity := if conf > 90 then "high" else "medium"
  , explanation := "Historical Analysis: Sensor patterns indicate physical manipulation." }

/-- initialize_data from app/__init__.py: on a non-empty mirror, sort it, rewrite
the latest reading per node, rebuild the alert list from tamper entries (newest
first, truncated to 50) and record the processed count. On an empty mirror it
returns immediately. -/
def initialize_data (env : Env) (db : DB) : DB :=
  if db.json_data = [] then db
  else
    let sorted_data := sortLog db.json_data
    let latest := node_latest sorted_data
    let latestR := latest.map (fun p => (p.1, convert_json_to_meter_reading env p.2))
    let preds := ((sorted_data.filter (fun e => isTamperEntry e)).map histAlert).reverse.take 50
    { db with
        meter_readings := setAll db.meter_readings latestR
      , predictions := preds
      , last_processed_index := db.json_data.length }

/-- reload_json_data from app/__init__.py: reload the mirror only when the file
exists, its size fingerprint changed or memory is empty, and the parse produced a
non-empty list; returns the new db and whether a reload happened. -/
def reload_json_data (fs : FileState) (db : DB) : DB × Bool :=
  if fileExists fs then
    if fileSize fs ≠ db.last_file_size ∨ db.json_data = [] then
      let data := load_sensor_logs fs
      if data ≠ [] then
        ({ db with json_data := data, last_file_size := fileSize fs }, true)
      else (db, false)
    else (db, false)
  else (db, false)

/-- One ingestion check of the background_update loop: reload, and re-run
initialize_data only when the reload reported a change. -/
def reconcile_pass (env : Env) (fs : FileState) (db : DB) : DB :=
  let r := reload_json_data fs db
  if r.2 then initialize_data env r.1 else r.1

/-- Classifier collaborator: tamper probability from the ordered window. -/
def Classifier : Type := List MeterReading → ℚ

/-- PredictiveModel of app/ai_model.py, reduced to its inference contract:
self.model is None when loading and training both failed. -/
structure PredictiveModel where
  model : Option Classifier

/-- Fixed window size self.TIME_STEPS = 10. -/
def PredictiveModel.TIME_STEPS (_m : PredictiveModel) : Nat := 10

/-- Python's built-in round: round half to even (banker's rounding). -/
def pyround (q : ℚ) : Int :=
  let f := ⌊q⌋
  let r := q - f
  if r < 1 / 2 then f
  else if 1 / 2 < r then f + 1
  else if f % 2 = 0 then f else f + 1

/-- get_health_score_and_prediction from app/ai_model.py. The readings are sorted
by timestamp descending and the first TIME_STEPS are fed to the classifier; the
confidence is 100 times the returned probability, the health score its rounded
complement, and an alert is produced above confidence 50 with the now timestamp
tNow. -/
def get_health_score_and_prediction (m : PredictiveModel) (tNow : Nat)
    (node_id : String) (recent_readings : List MeterReading) :
    Int × Option AIPrediction :=
  match m.model with
  | none => (100, none)
  | some infer =>
    if recent_readings.length < m.TIME_STEPS then (100, none)
    else
      let window :=
        (sortRel (fun a b => decide (b.timestamp ≤ a.timestamp)) recent_readings).take
          m.TIME_STEPS
      if window.length < m.TIME_STEPS then (100, none)
      else
        let tamper_probability := infer window
        let confidence := tamper_probability * 100
        let health_score := pyround (100 - confidence)
        let prediction : Option AIPrediction :=
          if confidence > 50 then
            some { timestamp := some tNow
                 , node_id := node_id
                 , event_type := "PREDICTED_TAMPER"
                 , confidence := confidence
                 , severity := if confidence > 85 then "high" else "medium"
                 , explanation := "Predictive Alert: Model predicts a " ++
                     toString confidence ++
                     "% probability of a tamper event based on recent sensor patterns." }
          else none
        (health_score, prediction)

/-- History entry of the SystemSimulation ring (the four parallel lists of
self.history, appended and trimmed together). -/
structure HistEntry where
  time : ℚ
  process_variable : ℚ
  setpoint : ℚ
  controller_output : ℚ
deriving DecidableEq

/-- PIDController from app/pid_controller.py, gains and mutable terms. -/
structure PIDController where
  Kp : ℚ
  Ki : ℚ
  Kd : ℚ
  setpoint : ℚ
  out_lo : ℚ
  out_hi : ℚ
  proportional : ℚ
  integral : ℚ
  derivative : ℚ
  last_error : ℚ
  last_time : ℚ
deriving DecidableEq

/-- PIDController._clamp: max(lower, min(value, upper)). -/
def PIDController.clamp (value lo hi : ℚ) : ℚ := max lo (min value hi)

/-- PIDController.update at clock value current_time: returns 0 and leaves the
controller untouched when dt <= 0, otherwise updates the three terms, clamps the
integral and the output to output_limits, and advances last_error and last_time. -/
def PIDController.update (p : PIDController) (current_time process_variable : ℚ) :
    PIDController × ℚ :=
  let dt := current_time - p.last_time
  if dt ≤ 0 then (p, 0)
  else
    let error := p.setpoint - process_variable
    let proportional := p.Kp * error
    let integral := PIDController.clamp (p.integral + p.Ki * error * dt) p.out_lo p.out_hi
    let error_derivative := (error - p.last_error) / dt
    let derivative := p.Kd * error_derivative
    let output :=
      PIDController.clamp (proportional + integral + derivative) p.out_lo p.out_hi
    ({ p with proportional := proportional
            , integral := integral
            , derivative := derivative
            , last_error := error
            , last_time := current_time }, output)

/-- SystemSimulation state from app/pid_controller.py. -/
structure SystemSimulation where
  pid : PIDController
  process_variable : ℚ
  last_step_time : ℚ
  history : List HistEntry
deriving DecidableEq

/-- Ring capacity self._max_history = 100. -/
def max_history : Nat := 100

/-- SystemSimulation._update_history: append the current state (at its own fresh
clock reading th) and trim every series to the trailing max_history entries. -/
def SystemSimulation.update_history (s : SystemSimulation) (th control_output : ℚ) :
    SystemSimulation :=
  { s with history := lastN max_history (s.history ++
      [{ time := th
       , process_variable := s.process_variable
       , setpoint := s.pid.setpoint
       , controller_output := control_output }]) }

/-- SystemSimulation.step at clock value current_time, with th the clock value read
inside _update_history and noise the np.random.normal(0, 0.1) draw. There is no
dt guard in this function: last_step_time is advanced, the PID update is asked for
an output (applying its own internal dt guard), the process variable moves by
(output + drag) * dt * 10 plus the noise, and a history entry is always appended. -/
def SystemSimulation.step (s : SystemSimulation) (current_time th noise : ℚ) :
    SystemSimulation :=
  let dt := current_time - s.last_step_time
  let s1 := { s with last_step_time := current_time }
  let pr := PIDController.update s1.pid current_time s1.process_variable
  let control_output := pr.2
  let drag_factor := -(1 / 20) * (s1.process_variable - 100)
  let pv := s1.process_variable + (control_output + drag_factor) * dt * 10 + noise
  let s2 := { s1 with pid := pr.1, process_variable := pv }
  SystemSimulation.update_history s2 th control_output

/-- SystemSimulation.trigger_disturbance: drop the process variable by the severity
(the code always uses the default 80) and reset the PID integral to zero. -/
def SystemSimulation.trigger_disturbance (s : SystemSimulation) (severity : ℚ) :
    SystemSimulation :=
  { s with process_variable := s.process_variable - severity
         , pid := { s.pid with integral := 0 } }

/-- Update the stored health_score of one node in the meter_readings dict
(db["meter_readings"][node_id].health_score = h). -/
def mrSetHealth (m : List (String × MeterReading)) (k : String) (h : Int) :
    List (String × MeterReading) :=
  m.map (fun p => if p.1 = k then (p.1, { p.2 with health_score := h }) else p)

/-- update_predictions_and_health from app/__init__.py: no-op when the model object
or the mirror is absent or the node has no readings; otherwise reset the node's
health to 100, and when at least TIME_STEPS recent readings exist ask the scorer,
store the returned health, and on a returned prediction prepend it to the alert
list, re-truncate to 50 and trigger the simulator disturbance (severity 80). -/
def update_predictions_and_health (pm : Option PredictiveModel) (env : Env)
    (tNow : Nat) (node_id : String) (db : DB) (sim : SystemSimulation) :
    DB × SystemSimulation :=
  match pm with
  | none => (db, sim)
  | some m =>
    if db.json_data = [] then (db, sim)
    else
      let node_history := db.json_data.filter (fun e => e.node_id == some node_id)
      if node_history = [] then (db, sim)
      else
        let recent_items := lastN m.TIME_STEPS node_history
        let recent_readings := recent_items.map (convert_json_to_meter_reading env)
        let db1 :=
          if (lookupA db.meter_readings node_id).isSome then
            { db with meter_readings := mrSetHealth db.meter_readings node_id 100 }
          else db
        if recent_readings.length ≥ m.TIME_STEPS then
          let result := get_health_score_and_prediction m tNow node_id recent_readings
          let db2 :=
            if (lookupA db1.meter_readings node_id).isSome then
              { db1 with meter_readings := mrSetHealth db1.meter_readings node_id result.1 }
            else db1
          match result.2 with
          | some pred =>
            ({ db2 with predictions := (pred :: db2.predictions).take 50 },
             SystemSimulation.trigger_disturbance sim 80)
          | none => (db2, sim)
        else (db1, sim)

/-- The distinct node identifiers present in the mirror, in first-seen order. -/
def distinctNodes (l : List Entry) : List String :=
  l.foldl (fun acc e =>
    match e.node_id with
    | some nid => if nid ∈ acc then acc else acc ++ [nid]
    | none => acc) []

/-- Modelled from the spec: step 4d of the reconciliation algorithm, which the
source never performs (update_predictions_and_health has no caller). After the
rebuild of initialize_data, the Scoring Orchestrator is invoked once for each
distinct node of the mirror. -/
def initialize_data_with_scoring (pm : Option PredictiveModel) (env : Env)
    (tNow : Nat) (db : DB) (sim : SystemSimulation) : DB × SystemSimulation :=
  let db1 := initialize_data env db
  (distinctNodes db1.json_data).foldl
    (fun st nid => update_predictions_and_health pm env tNow nid st.1 st.2)
    (db1, sim)

/-- The /api/readings surface of app/routes.py: dict values sorted by node_id. -/
def get_readings (db : DB) : List MeterReading :=
  sortRel (fun a b => decide (a.node_id ≤ b.node_id)) (db.meter_readings.map Prod.snd)

/-- The newest-first ordering of the alert list, keyed like the reconciliation sort
(a missing timestamp sorts as oldest). -/
def predKey (p : AIPrediction) : Nat := p.timestamp.getD 0

/-- A list of alerts is ordered newest-first when timestamps never increase. -/
def newestFirst (l : List AIPrediction) : Prop :=
  l.Pairwise (fun a b => predKey b ≤ predKey a)

/-- Run a sequence of PID ticks, each a pair of clock value and process variable. -/
def pidRun (p : PIDController) (ticks : List (ℚ × ℚ)) : PIDController :=
  ticks.foldl (fun s tp => (PIDController.update s tp.1 tp.2).1) p

/-! Concrete inputs used by witnesses and counterexamples. -/

/-- A concrete environment draw (confidence draws within the uniform ranges). -/
def env0 : Env :=
  { confT := 80, confN := 60, cipher := "aa", hmacHex := "bb", now := 0 }

/-- A second draw differing only in the NORMAL-range confidence value. -/
def env1 : Env :=
  { confT := 80, confN := 70, cipher := "aa", hmacHex := "bb", now := 0 }

/-- A minimal NORMAL log entry for node N1 at time t. -/
def mkE (t : Nat) : Entry :=
  { node_id := some "N1", timestamp := some t, voltage := none, current := none
  , lightIntensity := none, tamperFlag := none, event_type := none }

/-- A tamper-flagged entry for node N1 at time t with the given current value. -/
def mkT (t : Nat) (cur : ℚ) : Entry :=
  { node_id := some "N1", timestamp := some t, voltage := none, current := some cur
  , lightIntensity := none, tamperFlag := some 1, event_type := none }

/-- An empty database. -/
def db0 : DB :=
  { meter_readings := [], predictions := [], json_data := []
  , last_processed_index := 0, last_file_size := 0 }

/-- A database whose mirror holds ten NORMAL readings of node N1. -/
def dbC1 : DB :=
  { db0 with json_data :=
      [mkE 1, mkE 2, mkE 3, mkE 4, mkE 5, mkE 6, mkE 7, mkE 8, mkE 9, mkE 10] }

/-- A database whose mirror holds one NORMAL reading of node N1. -/
def dbOne : DB := { db0 with json_data := [mkE 1] }

/-- A database whose mirror holds one tamper entry with current = 13.3. -/
def dbC8 : DB := { db0 with json_data := [mkT 1 (133 / 10)] }

/-- A database with three readings of node N1 and a stored NodeState for it. -/
def dbC5 : DB :=
  { db0 with
      json_data := [mkE 1, mkE 2, mkE 3]
      meter_readings := [("N1", convert_json_to_meter_reading env0 (mkE 3))] }

/-- A classifier oracle that always reports tamper probability 1. -/
def clf1 : Classifier := fun _ => 1

/-- A predictive-model object holding that oracle. -/
def pm1 : PredictiveModel := { model := some clf1 }

/-- A concrete PID controller with the source's gains and default output limits. -/
def pid0 : PIDController :=
  { Kp := 1 / 5, Ki := 1 / 20, Kd := 1 / 10, setpoint := 100
  , out_lo := -10, out_hi := 10, proportional := 0, integral := 0
  , derivative := 0, last_error := 0, last_time := 0 }

/-- A controller with unit integral gain and a narrow output band. -/
def pidNarrow : PIDController := { pid0 with Ki := 1, out_lo := -2, out_hi := 2 }

/-- The same controller except for the default wide output band. -/
def pidWide : PIDController := { pid0 with Ki := 1 }

/-- A concrete simulation state with the clocks in sync and an empty history. -/
def sim0 : SystemSimulation :=
  { pid := pid0, process_variable := 100, last_step_time := 0, history := [] }

/-! Helper lemmas about the dict model. -/

/-- Lookup after a dict assignment: the assigned key now maps to the new value,
every other key is untouched. -/
theorem lookupA_alSet {α : Type} (m : List (String × α)) (k' : String) (v' : α)
    (k : String) :
    lookupA (alSet m k' v') k = if k = k' then some v' else lookupA m k := by
  induction m with
  | nil =>
    by_cases h : k = k'
    · simp [alSet, lookupA, h]
    · simp [alSet, lookupA, h, Ne.symm h]
  | cons p rest ih =>
    by_cases hp : p.1 = k'
    · by_cases h : k = k'
      · simp [alSet, lookupA, hp, h]
      · simp [alSet, lookupA, hp, h, Ne.symm h]
    · have hstep : alSet (p :: rest) k' v' = p :: alSet rest k' v' := by
        simp [alSet, hp]
      rw [hstep]
      show (if p.1 = k then some p.2 else lookupA (alSet rest k' v') k) = _
      rw [ih]
      by_cases h : p.1 = k
      · have hkk : ¬ k = k' := fun hh => hp (by rw [h, hh])
        simp [h, hkk, lookupA]
      · simp [h, lookupA]

/-- A dict assignment that rewrites the value a key already holds is the identity. -/
theorem alSet_lookup_eq {α : Type} (m : List (String × α)) (k : String) (v : α)
    (h : lookupA m k = some v) : alSet m k v = m := by
  induction m with
  | nil => simp [lookupA] at h
  | cons p rest ih =>
    by_cases hp : p.1 = k
    · simp only [lookupA, if_pos hp] at h
      have hv : p.2 = v := by injection h
      simp [alSet, hp, ← hv, Prod.ext_iff]
    · simp only [lookupA, if_neg hp] at h
      simp [alSet, hp, ih h]

/-- Assignments to other keys do not change a lookup. -/
theorem lookupA_setAll_of_ne {α : Type} (pairs : List (String × α))
    (m : List (String × α)) (k : String) (h : ∀ p ∈ pairs, p.1 ≠ k) :
    lookupA (setAll m pairs) k = lookupA m k := by
  induction pairs generalizing m with
  | nil => simp [setAll]
  | cons q rest ih =>
    have hq : q.1 ≠ k := h q (by simp)
    have hr : ∀ p ∈ rest, p.1 ≠ k := fun p hp => h p (by simp [hp])
    show lookupA (setAll (alSet m q.1 q.2) rest) k = lookupA m k
    rw [ih _ hr, lookupA_alSet]
    exact if_neg (fun h' => hq h'.symm)

/-- Replaying the same dict assignments over their own result changes nothing,
provided the assigned keys are distinct. -/
theorem setAll_setAll_self {α : Type} (pairs : List (String × α))
    (hnd : (pairs.map Prod.fst).Nodup) (m : List (String × α)) :
    setAll (setAll m pairs) pairs = setAll m pairs := by
  induction pairs generalizing m with
  | nil => simp [setAll]
  | cons q rest ih =>
    rw [List.map_cons, List.nodup_cons] at hnd
    have hq : ∀ p ∈ rest, p.1 ≠ q.1 := fun p hp hh =>
      hnd.1 (hh ▸ List.mem_map_of_mem Prod.fst hp)
    show setAll (alSet (setAll (alSet m q.1 q.2) rest) q.1 q.2) rest
        = setAll (alSet m q.1 q.2) rest
    have hlk : lookupA (setAll (alSet m q.1 q.2) rest) q.1 = some q.2 := by
      rw [lookupA_setAll_of_ne rest _ q.1 hq, lookupA_alSet]
      simp
    rw [alSet_lookup_eq _ _ _ hlk]
    exact ih hnd.2 _

/-- Membership after a dict assignment: a binding is the new one or an old one. -/
theorem mem_alSet {α : Type} {m : List (String × α)} {k : String} {v : α}
    {x : String × α} (hx : x ∈ alSet m k v) : x = (k, v) ∨ x ∈ m := by
  induction m with
  | nil =>
    simp only [alSet, List.mem_singleton] at hx
    exact Or.inl hx
  | cons p rest ih =>
    by_cases hp : p.1 = k
    · rw [show alSet (p :: rest) k v = (k, v) :: rest from by simp [alSet, hp]] at hx
      rcases List.mem_cons.mp hx with h | h
      · exact Or.inl h
      · exact Or.inr (List.mem_cons.mpr (Or.inr h))
    · rw [show alSet (p :: rest) k v = p :: alSet rest k v from by simp [alSet, hp]] at hx
      rcases List.mem_cons.mp hx with h | h
      · exact Or.inr (List.mem_cons.mpr (Or.inl h))
      · rcases ih h with h' | h'
        · exact Or.inl h'
        · exact Or.inr (List.mem_cons.mpr (Or.inr h'))

/-- Membership after a sequence of dict assignments. -/
theorem mem_setAll {α : Type} {pairs m : List (String × α)} {x : String × α}
    (hx : x ∈ setAll m pairs) : x ∈ m ∨ x ∈ pairs := by
  induction pairs generalizing m with
  | nil => exact Or.inl hx
  | cons q rest ih =>
    have hx' : x ∈ setAll (alSet m q.1 q.2) rest := hx
    rcases ih hx' with h | h
    · rcases mem_alSet h with h' | h'
      · exact Or.inr (by simp [h'])
      · exact Or.inl h'
    · exact Or.inr (List.mem_cons.mpr (Or.inr h))

/-- Keys present after a dict assignment were present before, or are the new key. -/
theorem mem_keys_alSet {α : Type} {m : List (String × α)} {k : String} {v : α}
    {x : String} (hx : x ∈ (alSet m k v).map Prod.fst) :
    x = k ∨ x ∈ m.map Prod.fst := by
  rcases List.mem_map.mp hx with ⟨p, hp, hfst⟩
  rcases mem_alSet hp with h | h
  · left; rw [← hfst, h]
  · right; exact hfst ▸ List.mem_map_of_mem Prod.fst h

/-- A dict assignment preserves distinctness of the stored keys. -/
theorem nodup_keys_alSet {α : Type} {m : List (String × α)} (k : String) (v : α)
    (hnd : (m.map Prod.fst).Nodup) : ((alSet m k v).map Prod.fst).Nodup := by
  induction m with
  | nil => simp [alSet]
  | cons p rest ih =>
    rw [List.map_cons, List.nodup_cons] at hnd
    by_cases hp : p.1 = k
    · rw [show alSet (p :: rest) k v = (k, v) :: rest from by simp [alSet, hp]]
      rw [List.map_cons, List.nodup_cons]
      exact ⟨hp ▸ hnd.1, hnd.2⟩
    · rw [show alSet (p :: rest) k v = p :: alSet rest k v from by simp [alSet, hp]]
      rw [List.map_cons, List.nodup_cons]
      refine ⟨?_, ih hnd.2⟩
      intro hmem
      rcases mem_keys_alSet hmem with h | h
      · exact hp h
      · exact hnd.1 h

/-- The per-node latest map of the reconciliation pass has distinct keys. -/
theorem node_latest_keys_nodup (l : List Entry) :
    ((node_latest l).map Prod.fst).Nodup := by
  have main : ∀ (l : List Entry) (acc : List (String × Entry)),
      (acc.map Prod.fst).Nodup →
      ((l.foldl (fun acc e =>
          match e.node_id with
          | some nid => if nid = "" then acc else alSet acc nid e
          | none => acc) acc).map Prod.fst).Nodup := by
    intro l
    induction l with
    | nil => intro acc h; exact h
    | cons e rest ih =>
      intro acc h
      simp only [List.foldl_cons]
      apply ih
      rcases he : e.node_id with _ | nid
      · simpa [he] using h
      · by_cases hnid : nid = ""
        · simpa [he, hnid] using h
        · simpa [he, hnid] using nodup_keys_alSet nid e h
  exact main l [] (by simp)

/-! Helper lemmas about the sort model. -/

/-- Stable insertion is a permutation of consing. -/
theorem insRel_perm {α : Type} (le : α → α → Bool) (a : α) (l : List α) :
    List.Perm (insRel le a l) (a :: l) := by
  induction l with
  | nil => simp [insRel]
  | cons b t ih =>
    by_cases h : le a b
    · simp [insRel, h]
    · rw [show insRel le a (b :: t) = b :: insRel le a t from by simp [insRel, h]]
      exact (List.Perm.cons b ih).trans (List.Perm.swap a b t)

/-- Stable insertion sort is a permutation of its input. -/
theorem sortRel_perm {α : Type} (le : α → α → Bool) (l : List α) :
    List.Perm (sortRel le l) l := by
  induction l with
  | nil => simp [sortRel]
  | cons a t ih =>
    exact (insRel_perm le a (sortRel le t)).trans (List.Perm.cons a ih)

/-- Membership is preserved by the sort model. -/
theorem mem_sortRel {α : Type} {le : α → α → Bool} {l : List α} {a : α} :
    a ∈ sortRel le l ↔ a ∈ l := (sortRel_perm le l).mem_iff

/-- Inserting into a list sorted on a natural key keeps it sorted. -/
theorem pairwise_insRel_key {α : Type} (key : α → Nat) (a : α) (l : List α)
    (hl : l.Pairwise (fun x y => key x ≤ key y)) :
    (insRel (fun x y => decide (key x ≤ key y)) a l).Pairwise
      (fun x y => key x ≤ key y) := by
  induction l with
  | nil => simp [insRel]
  | cons b t ih =>
    rcases List.pairwise_cons.mp hl with ⟨hb, ht⟩
    by_cases h : key a ≤ key b
    · rw [show insRel (fun x y => decide (key x ≤ key y)) a (b :: t)
          = a :: b :: t from by simp [insRel, h]]
      refine List.pairwise_cons.mpr ⟨?_, hl⟩
      intro x hx
      rcases List.mem_cons.mp hx with rfl | hx'
      · exact h
      · exact h.trans (hb x hx')
    · rw [show insRel (fun x y => decide (key x ≤ key y)) a (b :: t)
          = b :: insRel (fun x y => decide (key x ≤ key y)) a t from by simp [insRel, h]]
      refine List.pairwise_cons.mpr ⟨?_, ih ht⟩
      intro x hx
      rcases List.mem_cons.mp ((insRel_perm _ a t).mem_iff.mp hx) with rfl | hx'
      · exact Nat.le_of_not_le h
      · exact hb x hx'

/-- The sort model sorts: the output is pairwise ordered on the natural key. -/
theorem pairwise_sortRel_key {α : Type} (key : α → Nat) (l : List α) :
    (sortRel (fun x y => decide (key x ≤ key y)) l).Pairwise
      (fun x y => key x ≤ key y) := by
  induction l with
  | nil => simp [sortRel]
  | cons a t ih => exact pairwise_insRel_key key a _ ih

/-! Claim C4: a missing or unreadable log never destroys prior state. -/

/-- C4: when the telemetry log file is missing or its contents cannot be parsed,
the reconciliation pass reports no reload and returns the prior database (mirror,
NodeStates, alert list and cursors) unchanged; the model is total, so no error
reaches the caller. -/
theorem C4_unreadable_log_preserves_state (env : Env) (fs : FileState) (db : DB)
    (h : fs = FileState.missing ∨ ∃ s, fs = FileState.malformed s) :
    reload_json_data fs db = (db, false) ∧ reconcile_pass env fs db = db := by
  have hre : reload_json_data fs db = (db, false) := by
    rcases h with rfl | ⟨s, rfl⟩
    · simp [reload_json_data, fileExists]
    · by_cases hcond :
        fileSize (FileState.malformed s) ≠ db.last_file_size ∨ db.json_data = []
      · simp [reload_json_data, fileExists, hcond, load_sensor_logs]
      · simp [reload_json_data, fileExists, hcond]
  refine ⟨hre, ?_⟩
  show (if (reload_json_data fs db).2 then initialize_data env (reload_json_data fs db).1
        else (reload_json_data fs db).1) = db
  rw [hre]
  simp

/-- Witness for C4 at the missing-file state and a concrete database. -/
theorem C4_unreadable_log_preserves_state_w :
    reload_json_data FileState.missing dbOne = (dbOne, false) ∧
    reconcile_pass env0 FileState.missing dbOne = dbOne :=
  C4_unreadable_log_preserves_state env0 FileState.missing dbOne (Or.inl rfl)

/-! Claim C6: the integral clamp. Helper lemmas first. -/

/-- A PID update never changes the configured output limits. -/
theorem update_preserves_limits (p : PIDController) (t pv : ℚ) :
    (PIDController.update p t pv).1.out_lo = p.out_lo ∧
    (PIDController.update p t pv).1.out_hi = p.out_hi := by
  unfold PIDController.update
  by_cases h : t - p.last_time ≤ 0 <;> simp [h]

/-- One PID update keeps the integral inside [out_lo, out_hi] whenever it started
there (for dt <= 0 it is untouched, otherwise it is clamped into the band). -/
theorem update_integral_mem (p : PIDController) (hlim : p.out_lo ≤ p.out_hi)
    (hin : p.out_lo ≤ p.integral ∧ p.integral ≤ p.out_hi) (t pv : ℚ) :
    p.out_lo ≤ (PIDController.update p t pv).1.integral ∧
    (PIDController.update p t pv).1.integral ≤ p.out_hi := by
  unfold PIDController.update
  by_cases h : t - p.last_time ≤ 0
  · simpa [h] using hin
  · simp only [h, if_false, PIDController.clamp]
    exact ⟨le_max_left _ _, max_le hlim (min_le_right _ _)⟩

/-- C6 counterexample: the band the integral is clamped to is the output_limits
pair itself, not a band independent of it. Two controllers identical except for
their output_limits are given the same tick and store different integrals. -/
theorem C6_counterexample :
    pidNarrow = { pidWide with out_lo := -2, out_hi := 2 } ∧
    (PIDController.update pidNarrow 1 90).1.integral = 2 ∧
    (PIDController.update pidWide 1 90).1.integral = 10 ∧
    (2 : ℚ) ≠ 10 := by
  refine ⟨rfl, ?_, ?_, by norm_num⟩
  · norm_num [PIDController.update, PIDController.clamp, pidNarrow, pid0,
      min_def, max_def]
  · norm_num [PIDController.update, PIDController.clamp, pidWide, pid0,
      min_def, max_def]

/-- C6 amended: on every tick with positive dt the updated integral lies within
the band given by output_limits (which the update never changes), and along any
sequence of ticks an integral that starts in that band never leaves it. -/
theorem C6_integral_within_output_limits (p : PIDController)
    (hlim : p.out_lo ≤ p.out_hi) :
    (∀ t pv, 0 < t - p.last_time →
       p.out_lo ≤ (PIDController.update p t pv).1.integral ∧
       (PIDController.update p t pv).1.integral ≤ p.out_hi) ∧
    (p.out_lo ≤ p.integral → p.integral ≤ p.out_hi →
       ∀ ticks : List (ℚ × ℚ),
         p.out_lo ≤ (pidRun p ticks).integral ∧
         (pidRun p ticks).integral ≤ p.out_hi) := by
  constructor
  · intro t pv hdt
    unfold PIDController.update
    rw [if_neg (not_le.mpr hdt)]
    simp only [PIDController.clamp]
    exact ⟨le_max_left _ _, max_le hlim (min_le_right _ _)⟩
  · intro hlo hhi ticks
    have main : ∀ (ticks : List (ℚ × ℚ)) (q : PIDController),
        q.out_lo = p.out_lo → q.out_hi = p.out_hi →
        p.out_lo ≤ q.integral → q.integral ≤ p.out_hi →
        p.out_lo ≤ (pidRun q ticks).integral ∧
        (pidRun q ticks).integral ≤ p.out_hi := by
      intro ticks
      induction ticks with
      | nil => intro q _ _ h2 h3; exact ⟨h2, h3⟩
      | cons tp rest ih =>
        intro q hql hqh h2 h3
        have hq := update_integral_mem q (hql ▸ hqh ▸ hlim)
          ⟨hql ▸ h2, hqh ▸ h3⟩ tp.1 tp.2
        have hqlim := update_preserves_limits q tp.1 tp.2
        exact ih ((PIDController.update q tp.1 tp.2).1)
          (hqlim.1.trans hql) (hqlim.2.trans hqh)
          (hql ▸ hq.1) (hqh ▸ hq.2)
    exact main ticks p rfl rfl hlo hhi

/-- Witness for C6 at a concrete controller, tick and tick sequence. -/
theorem C6_integral_within_output_limits_w :
    (pid0.out_lo ≤ (PIDController.update pid0 1 50).1.integral ∧
     (PIDController.update pid0 1 50).1.integral ≤ pid0.out_hi) ∧
    (pid0.out_lo ≤ (pidRun pid0 [(1, 50)]).integral ∧
     (pidRun pid0 [(1, 50)]).integral ≤ pid0.out_hi) := by
  have h := C6_integral_within_output_limits pid0 (by norm_num [pid0])
  exact ⟨h.1 1 50 (by norm_num [pid0]),
         h.2 (by norm_num [pid0]) (by norm_num [pid0]) [(1, 50)]⟩

/-! Claim C7: a tick with dt = 0 is not a full no-op. -/

/-- C7 counterexample: a simulator tick whose clock did not advance (dt = 0, zero
noise) still appends a history entry, so the tick is not a no-op on the history
ring as claimed. -/
theorem C7_counterexample :
    (SystemSimulation.step sim0 0 0 0).history ≠ sim0.history := by
  intro h
  have hlen : (SystemSimulation.step sim0 0 0 0).history.length
      = (sim0 : SystemSimulation).history.length := by rw [h]
  have h1 : (SystemSimulation.step sim0 0 0 0).history.length = 1 := by
    simp [SystemSimulation.step, SystemSimulation.update_history, lastN, sim0,
      max_history]
  rw [h1] at hlen
  simp [sim0] at hlen

/-- C7 amended: on a tick with dt = 0 (the clocks of the simulation and of its PID
controller being in sync) the PID state — integral and last_error included — and,
for zero noise, the process variable are unchanged, but the simulation still
advances: it appends exactly one history entry recording output 0. The dt guard
lives only inside PIDController.update, not in SystemSimulation.step. -/
theorem C7_zero_dt_tick (s : SystemSimulation) (th noise : ℚ)
    (hsync : s.pid.last_time = s.last_step_time) :
    (SystemSimulation.step s s.last_step_time th noise).pid = s.pid ∧
    (SystemSimulation.step s s.last_step_time th noise).process_variable
      = s.process_variable + noise ∧
    (SystemSimulation.step s s.last_step_time th noise).last_step_time
      = s.last_step_time ∧
    (SystemSimulation.step s s.last_step_time th noise).history
      = lastN max_history (s.history ++
          [{ time := th
           , process_variable := s.process_variable + noise
           , setpoint := s.pid.setpoint
           , controller_output := 0 }]) := by
  have hpid : PIDController.update s.pid s.last_step_time s.process_variable
      = (s.pid, 0) := by
    unfold PIDController.update
    rw [hsync]
    rw [if_pos (by simp)]
  unfold SystemSimulation.step SystemSimulation.update_history
  simp only [hpid]
  norm_num

/-- Witness for C7 at a concrete in-sync simulation state. -/
theorem C7_zero_dt_tick_w :
    (SystemSimulation.step sim0 sim0.last_step_time 5 3).pid = sim0.pid ∧
    (SystemSimulation.step sim0 sim0.last_step_time 5 3).process_variable
      = sim0.process_variable + 3 ∧
    (SystemSimulation.step sim0 sim0.last_step_time 5 3).last_step_time
      = sim0.last_step_time ∧
    (SystemSimulation.step sim0 sim0.last_step_time 5 3).history
      = lastN max_history (sim0.history ++
          [{ time := 5
           , process_variable := sim0.process_variable + 3
           , setpoint := sim0.pid.setpoint
           , controller_output := 0 }]) :=
  C7_zero_dt_tick sim0 5 3 rfl

/-! Claim C10: the verified flag is unconditionally true. -/

/-- C10: the log-to-reading conversion sets verified to True for every input
record, and therefore every NodeState served by the /api/readings surface after a
reconciliation pass (from any state whose stored readings were all verified)
reports verified = True. -/
theorem C10_verified_always_true :
    (∀ env j, (convert_json_to_meter_reading env j).verified = true) ∧
    (∀ env db, (∀ p ∈ db.meter_readings, p.2.verified = true) →
       ∀ r ∈ get_readings (initialize_data env db), r.verified = true) := by
  constructor
  · intro env j; rfl
  · intro env db hdb r hr
    have hr' : r ∈ (initialize_data env db).meter_readings.map Prod.snd :=
      mem_sortRel.mp hr
    rcases List.mem_map.mp hr' with ⟨p, hp, rfl⟩
    by_cases h : db.json_data = []
    · rw [show initialize_data env db = db from by simp [initialize_data, h]] at hp
      exact hdb p hp
    · have hmr : (initialize_data env db).meter_readings
          = setAll db.meter_readings ((node_latest (sortLog db.json_data)).map
              (fun q => (q.1, convert_json_to_meter_reading env q.2))) := by
        simp [initialize_data, h]
      rw [hmr] at hp
      rcases mem_setAll hp with h' | h'
      · exact hdb p h'
      · rcases List.mem_map.mp h' with ⟨q, _, rfl⟩
        rfl

/-- Witness for C10 at a concrete record and database. -/
theorem C10_verified_always_true_w :
    (convert_json_to_meter_reading env0 (mkE 1)).verified = true ∧
    (∀ r ∈ get_readings (initialize_data env0 dbOne), r.verified = true) :=
  ⟨C10_verified_always_true.1 env0 (mkE 1),
   C10_verified_always_true.2 env0 dbOne (by simp [dbOne, db0])⟩

/-! Claim C5: fewer than W readings yield a neutral score and no alert. -/

/-- Lookup after the in-place health update of one node. -/
theorem lookupA_mrSetHealth (m : List (String × MeterReading)) (k : String)
    (h : Int) :
    lookupA (mrSetHealth m k h) k
      = (lookupA m k).map (fun v => { v with health_score := h }) := by
  induction m with
  | nil => simp [mrSetHealth, lookupA]
  | cons p rest ih =>
    by_cases hp : p.1 = k
    · simp [mrSetHealth, lookupA, hp]
    · simpa [mrSetHealth, lookupA, hp] using ih

/-- C5: when a node's mirror history holds fewer than TIME_STEPS = 10 readings,
the scoring operation leaves the simulator untouched (no disturbance), leaves the
alert list untouched, is the identity when the node has no readings at all, and
stores health_score = 100 for the node's NodeState when it has some readings. -/
theorem C5_short_history_is_neutral (m : PredictiveModel) (env : Env) (tNow : Nat)
    (nid : String) (db : DB) (sim : SystemSimulation)
    (hlt : (db.json_data.filter (fun e => e.node_id == some nid)).length
      < m.TIME_STEPS) :
    (update_predictions_and_health (some m) env tNow nid db sim).2 = sim ∧
    (update_predictions_and_health (some m) env tNow nid db sim).1.predictions
      = db.predictions ∧
    ((db.json_data.filter (fun e => e.node_id == some nid)) = [] →
       update_predictions_and_health (some m) env tNow nid db sim = (db, sim)) ∧
    (∀ v, lookupA db.meter_readings nid = some v →
       (db.json_data.filter (fun e => e.node_id == some nid)) ≠ [] →
       lookupA (update_predictions_and_health (some m) env tNow nid db
           sim).1.meter_readings nid
         = some { v with health_score := 100 }) := by
  by_cases hjson : db.json_data = []
  · have hr : update_predictions_and_health (some m) env tNow nid db sim
        = (db, sim) := by
      simp only [update_predictions_and_health]
      rw [if_pos hjson]
    refine ⟨by rw [hr], by rw [hr], fun _ => hr, ?_⟩
    intro v _ hne
    exact absurd (by rw [hjson]; rfl) hne
  · by_cases hnh : (db.json_data.filter (fun e => e.node_id == some nid)) = []
    · have hr : update_predictions_and_health (some m) env tNow nid db sim
          = (db, sim) := by
        simp only [update_predictions_and_health]
        rw [if_neg hjson, if_pos hnh]
      exact ⟨by rw [hr], by rw [hr], fun _ => hr, fun v _ hne => absurd hnh hne⟩
    · have hrecent : ¬ (((lastN m.TIME_STEPS
          (db.json_data.filter (fun e => e.node_id == some nid))).map
            (convert_json_to_meter_reading env)).length ≥ m.TIME_STEPS) := by
        rw [List.length_map]
        simp only [lastN, List.length_drop]
        omega
      have hr : update_predictions_and_health (some m) env tNow nid db sim
          = (if (lookupA db.meter_readings nid).isSome then
               { db with meter_readings := mrSetHealth db.meter_readings nid 100 }
             else db, sim) := by
        simp only [update_predictions_and_health]
        rw [if_neg hjson, if_neg hnh, if_neg hrecent]
      refine ⟨by rw [hr], ?_, fun h => absurd h hnh, ?_⟩
      · rw [hr]
        by_cases hs : (lookupA db.meter_readings nid).isSome <;> simp [hs]
      · intro v hv _
        rw [hr]
        have hs : (lookupA db.meter_readings nid).isSome = true := by
          rw [hv]; rfl
        simp only [hs, if_pos rfl, if_true]
        rw [lookupA_mrSetHealth, hv]
        rfl

/-- Witness for C5 at a node with three readings and a stored NodeState. -/
theorem C5_short_history_is_neutral_w :
    (update_predictions_and_health (some pm1) env0 20 "N1" dbC5 sim0).2 = sim0 ∧
    (update_predictions_and_health (some pm1) env0 20 "N1" dbC5 sim0).1.predictions
      = dbC5.predictions ∧
    ((dbC5.json_data.filter (fun e => e.node_id == some "N1")) = [] →
       update_predictions_and_health (some pm1) env0 20 "N1" dbC5 sim0
         = (dbC5, sim0)) ∧
    (∀ v, lookupA dbC5.meter_readings "N1" = some v →
       (dbC5.json_data.filter (fun e => e.node_id == some "N1")) ≠ [] →
       lookupA (update_predictions_and_health (some pm1) env0 20 "N1" dbC5
           sim0).1.meter_readings "N1"
         = some { v with health_score := 100 }) :=
  C5_short_history_is_neutral pm1 env0 20 "N1" dbC5 sim0 (by decide)

/-! Claim C2: reconciliation idempotence. -/

/-- Rewriting a database with its own field values is the identity. -/
theorem DB_update_self (x : DB) (a : List (String × MeterReading))
    (b : List AIPrediction) (c : Nat)
    (ha : x.meter_readings = a) (hb : x.predictions = b)
    (hc : x.last_processed_index = c) :
    ({ x with meter_readings := a, predictions := b, last_processed_index := c } : DB)
      = x := by
  cases x
  simp_all

/-- Unfolding of initialize_data on a database whose mirror is the non-empty l. -/
theorem initialize_data_eq (env : Env) (d : DB) (l : List Entry)
    (hd : d.json_data = l) (h : l ≠ []) :
    initialize_data env d
      = { d with
            meter_readings := setAll d.meter_readings
              ((node_latest (sortLog l)).map
                (fun p => (p.1, convert_json_to_meter_reading env p.2)))
          , predictions := (((sortLog l).filter (fun e => isTamperEntry e)).map
              histAlert).reverse.take 50
          , last_processed_index := l.length } := by
  simp only [initialize_data, hd]
  rw [if_neg h]

/-- C2 counterexample: the randomly drawn confidence field differs between two
consecutive reconciliation runs over the unchanged log, so the NodeState left by
the second run does not equal the one left by the first in all fields. -/
theorem C2_counterexample :
    ((lookupA (initialize_data env0 dbOne).meter_readings "N1").map
        (fun r => r.confidence)) = some 60 ∧
    ((lookupA (initialize_data env1 (initialize_data env0 dbOne)).meter_readings
        "N1").map (fun r => r.confidence)) = some 70 ∧
    (60 : ℚ) ≠ 70 := by
  refine ⟨?_, ?_, by norm_num⟩
  · simp [initialize_data, dbOne, db0, mkE, sortLog, sortRel, insRel, node_latest,
      alSet, setAll, lookupA, convert_json_to_meter_reading, env0]
  · simp [initialize_data, dbOne, db0, mkE, sortLog, sortRel, insRel, node_latest,
      alSet, setAll, lookupA, convert_json_to_meter_reading, env0, env1]

/-- C2 amended: provided the environment draws (random confidences, random hex
strings, clock default) are the same in both runs, re-running the reconciliation
recompute on the unchanged mirror reproduces the NodeStates, the alert list and
the cursors of the first run exactly; in general only the drawn fields can
differ, as the counterexample shows. -/
theorem C2_reconciliation_idempotent (env : Env) (db : DB) :
    initialize_data env (initialize_data env db) = initialize_data env db := by
  by_cases h : db.json_data = []
  · simp [initialize_data, h]
  · have h1 := initialize_data_eq env db db.json_data rfl h
    have hjd : (initialize_data env db).json_data = db.json_data := by rw [h1]
    have h2 := initialize_data_eq env (initialize_data env db) db.json_data hjd h
    have hkeys : (((node_latest (sortLog db.json_data)).map
        (fun p => (p.1, convert_json_to_meter_reading env p.2))).map Prod.fst).Nodup := by
      have heq : ((node_latest (sortLog db.json_data)).map
          (fun p => (p.1, convert_json_to_meter_reading env p.2))).map Prod.fst
          = (node_latest (sortLog db.json_data)).map Prod.fst := by
        rw [List.map_map]
        rfl
      rw [heq]
      exact node_latest_keys_nodup _
    rw [h2, h1]
    rw [setAll_setAll_self _ hkeys]

/-! Shared facts about the rebuilt alert list and the scorer. -/

/-- The alert list produced by a reconciliation pass over a non-empty mirror. -/
theorem init_predictions_eq (env : Env) (db : DB) (h : db.json_data ≠ []) :
    (initialize_data env db).predictions
      = (((sortLog db.json_data).filter (fun e => isTamperEntry e)).map
          histAlert).reverse.take 50 := by
  rw [initialize_data_eq env db db.json_data rfl h]

/-- Every alert present after a reconciliation pass is the historical alert of a
tamper-flagged entry of the mirror. -/
theorem mem_init_predictions {env : Env} {db : DB} {p : AIPrediction}
    (h : db.json_data ≠ []) (hp : p ∈ (initialize_data env db).predictions) :
    ∃ e, e ∈ db.json_data ∧ isTamperEntry e = true ∧ p = histAlert e := by
  rw [init_predictions_eq env db h] at hp
  have hp1 := (List.take_sublist 50 _).subset hp
  have hp2 := List.mem_reverse.mp hp1
  rcases List.mem_map.mp hp2 with ⟨e, he, rfl⟩
  rcases List.mem_filter.mp he with ⟨he1, he2⟩
  exact ⟨e, mem_sortRel.mp he1, he2, rfl⟩

/-- A lookup after a batch of dict assignments returns an assigned value or the
original one. -/
theorem lookupA_setAll_or {α : Type} (pairs : List (String × α))
    (m : List (String × α)) (k : String) {r : α}
    (h : lookupA (setAll m pairs) k = some r) :
    (∃ p ∈ pairs, p.2 = r) ∨ lookupA m k = some r := by
  induction pairs generalizing m with
  | nil => exact Or.inr h
  | cons q rest ih =>
    have h' : lookupA (setAll (alSet m q.1 q.2) rest) k = some r := h
    rcases ih _ h' with h2 | h2
    · rcases h2 with ⟨p, hp, hpr⟩
      exact Or.inl ⟨p, List.mem_cons.mpr (Or.inr hp), hpr⟩
    · rw [lookupA_alSet] at h2
      by_cases hk : k = q.1
      · rw [if_pos hk] at h2
        refine Or.inl ⟨q, List.mem_cons.mpr (Or.inl rfl), ?_⟩
        injection h2 with h3
      · rw [if_neg hk] at h2
        exact Or.inr h2

/-- Python round of an integer value is that integer. -/
theorem pyround_intCast (n : Int) : pyround ((n : ℚ)) = n := by
  simp only [pyround, Int.floor_intCast, sub_self]
  rw [if_pos (by norm_num)]

/-- Python round of zero. -/
theorem pyround_zero : pyround 0 = 0 := by
  simpa using pyround_intCast 0

/-- A prediction emitted by the scorer carries the scorer's clock value as its
timestamp. -/
theorem get_health_pred_timestamp (m : PredictiveModel) (tNow : Nat)
    (nid : String) (rs : List MeterReading) (pred : AIPrediction)
    (h : (get_health_score_and_prediction m tNow nid rs).2 = some pred) :
    pred.timestamp = some tNow := by
  rcases hm : m.model with _ | infer
  · simp only [get_health_score_and_prediction, hm] at h
    exact absurd h (by simp)
  · simp only [get_health_score_and_prediction, hm] at h
    split at h
    · simp at h
    · split at h
      · simp at h
      · simp only [] at h
        split at h
        · have h3 := Option.some.inj h
          rw [← h3]
        · simp at h

/-- The scorer on the constant-probability-1 oracle over a full window: health
score 0 and a high-severity prediction stamped with the scorer's clock. -/
theorem get_health_clf1 (tNow : Nat) (nid : String) (rs : List MeterReading)
    (hlen : rs.length = 10) :
    get_health_score_and_prediction pm1 tNow nid rs
      = (0, some { timestamp := some tNow, node_id := nid
                 , event_type := "PREDICTED_TAMPER", confidence := 100
                 , severity := "high"
                 , explanation := "Predictive Alert: Model predicts a " ++
                     toString (100 : ℚ) ++
                     "% probability of a tamper event based on recent sensor patterns." }) := by
  have hwlen : ((sortRel (fun a b : MeterReading => decide (b.timestamp ≤ a.timestamp))
      rs).take 10).length = 10 := by
    rw [List.length_take, (sortRel_perm _ rs).length_eq, hlen]
    simp
  simp only [get_health_score_and_prediction, pm1, PredictiveModel.TIME_STEPS, clf1,
    one_mul]
  rw [if_neg (by omega : ¬ rs.length < 10), if_neg (by omega : ¬ ((sortRel
    (fun a b : MeterReading => decide (b.timestamp ≤ a.timestamp)) rs).take 10).length < 10)]
  rw [sub_self, pyround_zero]
  rw [if_pos (by norm_num : (100 : ℚ) > 50), if_pos (by norm_num : (100 : ℚ) > 85)]

/-! Claim C9: reconciliation replaces the alert list wholesale. -/

/-- C9: a reconciliation pass over a non-empty mirror replaces the alert list
wholesale — the rebuilt list does not depend on the previous alert list, so every
previously inserted PREDICTED alert is discarded — and every entry of the rebuilt
list is the HISTORICAL alert of a tamper-flagged entry of the log. -/
theorem C9_alerts_replaced_wholesale (env : Env) (db : DB)
    (h : db.json_data ≠ []) :
    (initialize_data env db).predictions
      = (initialize_data env { db with predictions := [] }).predictions ∧
    ∀ p ∈ (initialize_data env db).predictions,
      ∃ e, e ∈ db.json_data ∧ isTamperEntry e = true ∧ p = histAlert e := by
  constructor
  · rw [init_predictions_eq env db h,
      init_predictions_eq env { db with predictions := [] } h]
  · intro p hp
    exact mem_init_predictions h hp

/-- Witness for C9 at a database holding one tamper entry. -/
theorem C9_alerts_replaced_wholesale_w :
    ((initialize_data env0 dbC8).predictions
       = (initialize_data env0 { dbC8 with predictions := [] }).predictions) ∧
    (∀ p ∈ (initialize_data env0 dbC8).predictions,
       ∃ e, e ∈ dbC8.json_data ∧ isTamperEntry e = true ∧ p = histAlert e) :=
  C9_alerts_replaced_wholesale env0 dbC8 (by simp [dbC8, db0])

/-! Claim C1: reconciliation does not invoke the Scoring Orchestrator. -/

/-- C1 counterexample: over a mirror holding ten readings of node N1 and with a
classifier predicting certain tampering, the pass described by the spec
(initialize_data followed by one Scoring Orchestrator invocation per distinct
node) would store the live health score 0 and a PREDICTED alert, but the code's
reconciliation pass leaves health_score at the reset baseline 100 and produces no
alert at all: the orchestrator is never invoked. -/
theorem C1_counterexample :
    (lookupA (initialize_data env0 dbC1).meter_readings "N1").map
        (fun r => r.health_score) = some 100 ∧
    (initialize_data env0 dbC1).predictions = [] ∧
    (lookupA (initialize_data_with_scoring (some pm1) env0 20 dbC1
        sim0).1.meter_readings "N1").map (fun r => r.health_score) = some 0 ∧
    (100 : Int) ≠ 0 := by
  refine ⟨by decide, by decide, ?_, by decide⟩
  have hsplit : initialize_data_with_scoring (some pm1) env0 20 dbC1 sim0
      = update_predictions_and_health (some pm1) env0 20 "N1"
          (initialize_data env0 dbC1) sim0 := by rfl
  rw [hsplit]
  have hrec : ((lastN 10 ((initialize_data env0 dbC1).json_data.filter
      (fun e => e.node_id == some "N1"))).map
        (convert_json_to_meter_reading env0)).length = 10 := by decide
  have hget := get_health_clf1 20 "N1"
    ((lastN 10 ((initialize_data env0 dbC1).json_data.filter
      (fun e => e.node_id == some "N1"))).map (convert_json_to_meter_reading env0))
    hrec
  simp only [update_predictions_and_health, PredictiveModel.TIME_STEPS]
  rw [if_neg (by decide : ¬ (initialize_data env0 dbC1).json_data = []),
    if_neg (by decide : ¬ ((initialize_data env0 dbC1).json_data.filter
      (fun e => e.node_id == some "N1")) = []),
    if_pos (le_of_eq hrec.symm)]
  rw [hget]
  rw [if_pos (by decide : (lookupA (initialize_data env0 dbC1).meter_readings
    "N1").isSome = true)]
  simp only []
  rw [if_pos (by decide : (lookupA (mrSetHealth (initialize_data env0
    dbC1).meter_readings "N1" 100) "N1").isSome = true)]
  simp only [lookupA_mrSetHealth]
  rw [show lookupA (initialize_data env0 dbC1).meter_readings "N1"
      = some (convert_json_to_meter_reading env0 (mkE 10)) from by decide]
  rfl

/-- C1 amended: the reconciliation pass never invokes the Scoring Orchestrator
(update_predictions_and_health has no caller in the code): after a pass over a
non-empty log, every NodeState either carries the reset baseline health score 100
or is an entry of the previous state the pass did not touch, and the rebuilt
alert list contains only HISTORICAL (TAMPER) alerts — never a PREDICTED one. -/
theorem C1_reconciliation_never_scores (env : Env) (db : DB)
    (hne : db.json_data ≠ []) :
    (∀ nid r, lookupA (initialize_data env db).meter_readings nid = some r →
        r.health_score = 100 ∨ lookupA db.meter_readings nid = some r) ∧
    (∀ p ∈ (initialize_data env db).predictions, p.event_type = "TAMPER") := by
  constructor
  · intro nid r hr
    rw [initialize_data_eq env db db.json_data rfl hne] at hr
    have hr' : lookupA (setAll db.meter_readings
        ((node_latest (sortLog db.json_data)).map
          (fun p => (p.1, convert_json_to_meter_reading env p.2)))) nid
        = some r := hr
    rcases lookupA_setAll_or _ _ _ hr' with ⟨p, hp, hpr⟩ | h
    · rcases List.mem_map.mp hp with ⟨q, _, rfl⟩
      left
      rw [← hpr]
      rfl
    · exact Or.inr h
  · intro p hp
    rcases mem_init_predictions hne hp with ⟨e, _, _, rfl⟩
    rfl

/-- Witness for C1 at the ten-reading database. -/
theorem C1_reconciliation_never_scores_w :
    (∀ nid r, lookupA (initialize_data env0 dbC1).meter_readings nid = some r →
        r.health_score = 100 ∨ lookupA dbC1.meter_readings nid = some r) ∧
    (∀ p ∈ (initialize_data env0 dbC1).predictions, p.event_type = "TAMPER") :=
  C1_reconciliation_never_scores env0 dbC1 (by simp [dbC1, db0])

/-! Claim C8: the historical-alert confidence heuristic and its cap. -/

/-- C8 counterexample: the tamper entry with current = 13.3 gets stored confidence
80 + 1.5 * 13.3 = 99.95, which exceeds 99.9 — the replacement by 99.9 happens only
when the raw value exceeds 100, so the cap claimed at 99.9 does not hold for the
stored value. -/
theorem C8_counterexample :
    (initialize_data env0 dbC8).predictions.map (fun p => p.confidence)
      = [1999 / 20] ∧ (999 : ℚ) / 10 < 1999 / 20 := by
  constructor
  · rw [init_predictions_eq env0 dbC8 (by simp [dbC8, db0])]
    norm_num [dbC8, db0, sortLog, sortRel, insRel, isTamperEntry, mkT, histAlert,
      histConf]
  · norm_num

/-- C8 amended: every alert produced by a reconciliation pass over a non-empty
mirror comes from a tamper-flagged entry and stores confidence
80 + 1.5 * current, replaced by 99.9 only when that value exceeds 100 (so the
stored confidence is bounded by 100, not by 99.9), with severity high exactly
when the stored confidence exceeds 90 and medium otherwise. -/
theorem C8_historical_confidence_formula (env : Env) (db : DB)
    (hne : db.json_data ≠ []) (p : AIPrediction)
    (hp : p ∈ (initialize_data env db).predictions) :
    ∃ e, e ∈ db.json_data ∧ isTamperEntry e = true ∧ p = histAlert e ∧
      p.confidence = (if 80 + (e.current.getD 0) * (3 / 2) > 100 then (999 : ℚ) / 10
                      else 80 + (e.current.getD 0) * (3 / 2)) ∧
      p.confidence ≤ 100 ∧
      p.severity = (if p.confidence > 90 then "high" else "medium") := by
  rcases mem_init_predictions hne hp with ⟨e, he, ht, rfl⟩
  refine ⟨e, he, ht, rfl, rfl, ?_, rfl⟩
  show histConf e ≤ 100
  simp only [histConf]
  by_cases h : (80 : ℚ) + (e.current.getD 0) * (3 / 2) > 100
  · rw [if_pos h]; norm_num
  · rw [if_neg h]; exact le_of_not_lt h

/-- Witness for C8 at the database holding one tamper entry. -/
theorem C8_historical_confidence_formula_w :
    histAlert (mkT 1 (133 / 10)) ∈ (initialize_data env0 dbC8).predictions ∧
    ∃ e, e ∈ dbC8.json_data ∧ isTamperEntry e = true ∧
      histAlert (mkT 1 (133 / 10)) = histAlert e ∧
      (histAlert (mkT 1 (133 / 10))).confidence
        = (if 80 + (e.current.getD 0) * (3 / 2) > 100 then (999 : ℚ) / 10
           else 80 + (e.current.getD 0) * (3 / 2)) ∧
      (histAlert (mkT 1 (133 / 10))).confidence ≤ 100 ∧
      (histAlert (mkT 1 (133 / 10))).severity
        = (if (histAlert (mkT 1 (133 / 10))).confidence > 90 then "high"
           else "medium") := by
  have hmem : histAlert (mkT 1 (133 / 10)) ∈ (initialize_data env0 dbC8).predictions := by
    rw [init_predictions_eq env0 dbC8 (by simp [dbC8, db0])]
    simp [dbC8, db0, sortLog, sortRel, insRel, isTamperEntry, mkT]
  exact ⟨hmem,
    C8_historical_confidence_formula env0 dbC8 (by simp [dbC8, db0]) _ hmem⟩

/-! Claim C3: the alert list is bounded by 50 and ordered newest-first. -/

/-- The alert list after the scorer runs: either untouched, or one prediction
stamped with the scorer's clock prepended at index 0 and the overflow dropped
from the tail by the truncation to 50. -/
theorem update_predictions_shape (m : PredictiveModel) (env : Env) (tNow : Nat)
    (nid : String) (db : DB) (sim : SystemSimulation) :
    (update_predictions_and_health (some m) env tNow nid db sim).1.predictions
        = db.predictions ∨
    ∃ pred, pred.timestamp = some tNow ∧
      (update_predictions_and_health (some m) env tNow nid db sim).1.predictions
        = (pred :: db.predictions).take 50 := by
  by_cases hjson : db.json_data = []
  · left
    simp only [update_predictions_and_health]
    rw [if_pos hjson]
  · by_cases hnh : (db.json_data.filter (fun e => e.node_id == some nid)) = []
    · left
      simp only [update_predictions_and_health]
      rw [if_neg hjson, if_pos hnh]
    · by_cases hge : ((lastN m.TIME_STEPS (db.json_data.filter
          (fun e => e.node_id == some nid))).map
            (convert_json_to_meter_reading env)).length ≥ m.TIME_STEPS
      · rcases hres : (get_health_score_and_prediction m tNow nid
            ((lastN m.TIME_STEPS (db.json_data.filter
              (fun e => e.node_id == some nid))).map
                (convert_json_to_meter_reading env))).2 with _ | pred
        · left
          simp only [update_predictions_and_health]
          rw [if_neg hjson, if_neg hnh, if_pos hge, hres]
          by_cases h1 : (lookupA db.meter_readings nid).isSome
            <;> by_cases h2 : (lookupA (mrSetHealth db.meter_readings nid
                  100) nid).isSome
            <;> simp [h1, h2]
        · right
          refine ⟨pred, get_health_pred_timestamp m tNow nid _ pred hres, ?_⟩
          simp only [update_predictions_and_health]
          rw [if_neg hjson, if_neg hnh, if_pos hge, hres]
          by_cases h1 : (lookupA db.meter_readings nid).isSome
            <;> by_cases h2 : (lookupA (mrSetHealth db.meter_readings nid
                  100) nid).isSome
            <;> simp [h1, h2]
      · left
        simp only [update_predictions_and_health]
        rw [if_neg hjson, if_neg hnh, if_neg hge]
        by_cases h1 : (lookupA db.meter_readings nid).isSome <;> simp [h1]

/-- C3: after a reconciliation pass over a non-empty log the alert list has at
most 50 entries and is ordered newest-first; and whenever the scorer inserts a
predictive alert into a newest-first list of at most 50 alerts none of which is
newer than the scorer's clock, the result again has at most 50 entries, is
newest-first, and is either the untouched list or the new alert prepended at
index 0 with the overflow dropped from the tail. -/
theorem C3_alert_list_bounded_newest_first (env : Env) (db : DB)
    (hne : db.json_data ≠ []) :
    ((initialize_data env db).predictions.length ≤ 50 ∧
     newestFirst (initialize_data env db).predictions) ∧
    (∀ (m : PredictiveModel) (tNow : Nat) (nid : String) (sim : SystemSimulation),
       newestFirst db.predictions →
       (∀ p ∈ db.predictions, predKey p ≤ tNow) →
       db.predictions.length ≤ 50 →
       (update_predictions_and_health (some m) env tNow nid db
           sim).1.predictions.length ≤ 50 ∧
       newestFirst (update_predictions_and_health (some m) env tNow nid db
           sim).1.predictions ∧
       ((update_predictions_and_health (some m) env tNow nid db
            sim).1.predictions = db.predictions ∨
        ∃ pred, pred.timestamp = some tNow ∧
          (update_predictions_and_health (some m) env tNow nid db
              sim).1.predictions = (pred :: db.predictions).take 50)) := by
  constructor
  · constructor
    · rw [init_predictions_eq env db hne, List.length_take]
      exact min_le_left _ _
    · rw [init_predictions_eq env db hne]
      have hs0 : (sortLog db.json_data).Pairwise (fun a b => tsKey a ≤ tsKey b) :=
        pairwise_sortRel_key tsKey db.json_data
      have h1 := hs0.filter (fun e => isTamperEntry e)
      have h2 : (((sortLog db.json_data).filter (fun e => isTamperEntry e)).map
          histAlert).Pairwise (fun p q => predKey p ≤ predKey q) :=
        List.pairwise_map.mpr (h1.imp (fun hab => hab))
      have h3 : ((((sortLog db.json_data).filter (fun e => isTamperEntry e)).map
          histAlert).reverse).Pairwise (fun p q => predKey q ≤ predKey p) :=
        List.pairwise_reverse.mpr h2
      exact List.Pairwise.sublist (List.take_sublist 50 _) h3
  · intro m tNow nid sim hsorted hbound hlen
    rcases update_predictions_shape m env tNow nid db sim with hsame |
      ⟨pred, hts, heq⟩
    · refine ⟨?_, ?_, Or.inl hsame⟩
      · rw [hsame]; exact hlen
      · rw [hsame]; exact hsorted
    · have hkey : ∀ q ∈ db.predictions, predKey q ≤ predKey pred := by
        intro q hq
        have : predKey pred = tNow := by
          simp [predKey, hts]
        rw [this]
        exact hbound q hq
      refine ⟨?_, ?_, Or.inr ⟨pred, hts, heq⟩⟩
      · rw [heq, List.length_take]
        exact min_le_left _ _
      · rw [heq]
        exact List.Pairwise.sublist (List.take_sublist 50 _)
          (List.pairwise_cons.mpr ⟨hkey, hsorted⟩)

/-- Witness for C3 at a concrete database with one reading and no prior alerts. -/
theorem C3_alert_list_bounded_newest_first_w :
    (((initialize_data env0 dbOne).predictions.length ≤ 50 ∧
      newestFirst (initialize_data env0 dbOne).predictions)) ∧
    ((update_predictions_and_health (some pm1) env0 20 "N1" dbOne
        sim0).1.predictions.length ≤ 50 ∧
     newestFirst (update_predictions_and_health (some pm1) env0 20 "N1" dbOne
        sim0).1.predictions ∧
     ((update_predictions_and_health (some pm1) env0 20 "N1" dbOne
          sim0).1.predictions = dbOne.predictions ∨
      ∃ pred, pred.timestamp = some 20 ∧
        (update_predictions_and_health (some pm1) env0 20 "N1" dbOne
            sim0).1.predictions = (pred :: dbOne.predictions).take 50)) := by
  have h := C3_alert_list_bounded_newest_first env0 dbOne (by simp [dbOne, db0])
  exact ⟨h.1, h.2 pm1 20 "N1" sim0 (by simp [newestFirst, dbOne, db0])
    (by simp [dbOne, db0]) (by simp [dbOne, db0])⟩
